import Mathlib

set_option maxHeartbeats 1000000

namespace Checker

mutual

/-- JSON-like values modelling the Python dict/list/scalar trees that the
repository manipulates (outbound configurations in checker.py, poll payloads
in check_host.py).  Scalars are strings, integers, booleans and null;
mappings and sequences are modelled by the mutual types below. -/
inductive JVal where
  | str : String → JVal
  | num : Int → JVal
  | jbool : Bool → JVal
  | null : JVal
  | obj : JFields → JVal
  | arr : JItems → JVal
deriving DecidableEq

/-- Association list of a Python dict: key/value pairs in insertion order. -/
inductive JFields where
  | fnil : JFields
  | fcons : String → JVal → JFields → JFields
deriving DecidableEq

/-- Items of a Python list. -/
inductive JItems where
  | inil : JItems
  | icons : JVal → JItems → JItems
deriving DecidableEq

end

/-- Python `d.get(key)`: first value bound to the key, or none. -/
def jget : JFields → String → Option JVal
  | .fnil, _ => none
  | .fcons k v fs, key => if k = key then some v else jget fs key

/-- Python `key in d`: key presence test. -/
def hasKey (fs : JFields) (k : String) : Bool :=
  (jget fs k).isSome

/-- The values of a dict, in order (used to phrase nesting declaratively). -/
def fvals : JFields → List JVal
  | .fnil => []
  | .fcons _ v fs => v :: fvals fs

/-- The items of a list, as a Lean list. -/
def ivals : JItems → List JVal
  | .inil => []
  | .icons v its => v :: ivals its

/-! ## WS-path escape validation (checker.py, is_invalid_path, lines 67-79) -/

/-- checker.py line 67: the characters accepted after a percent sign. -/
def hex_digits : List Char := "0123456789abcdefABCDEF".data

/-- The index-based scan of checker.py lines 72-79, rendered as list recursion:
at a percent sign the two following characters must exist and be hex digits,
and a well-formed escape advances the scan past both digits (`i += 2; i += 1`). -/
def scanPath : List Char → Bool
  | [] => false
  | c :: rest =>
    if c = '%' then
      match rest with
      | c1 :: c2 :: rest2 =>
        if hex_digits.contains c1 && hex_digits.contains c2 then scanPath rest2 else true
      | _ => true
    else scanPath rest

/-- checker.py lines 69-79: `is_invalid_path` returns False outright for an
empty string or a string without a percent sign, else runs the scan. -/
def is_invalid_path (p : String) : Bool :=
  if p.data.isEmpty || !(p.data.contains '%') then false else scanPath p.data

/-- Declarative reading of the claim: position `i` holds a percent sign that is
not followed by two hexadecimal digits. -/
def malformedIdx (l : List Char) (i : Nat) : Prop :=
  l.get? i = some '%' ∧
  ¬ (∃ c1 c2, l.get? (i + 1) = some c1 ∧ l.get? (i + 2) = some c2 ∧
      hex_digits.contains c1 = true ∧ hex_digits.contains c2 = true)

/-- The claim's invalidity condition: some percent sign in the string does not
begin a well-formed two-hex-digit escape. -/
def malformed (l : List Char) : Prop := ∃ i, malformedIdx l i

theorem hex_ne_pct {c : Char} (h : hex_digits.contains c = true) : c ≠ '%' := by
  intro hc
  subst hc
  exact absurd h (by decide)

theorem malformedIdx_cons_succ {c : Char} {rest : List Char} {i : Nat} :
    malformedIdx (c :: rest) (i + 1) ↔ malformedIdx rest i := by
  unfold malformedIdx
  simp [List.get?_cons_succ]

theorem malformed_cons {c : Char} {rest : List Char} :
    malformed (c :: rest) ↔ malformedIdx (c :: rest) 0 ∨ malformed rest := by
  constructor
  · rintro ⟨i, hi⟩
    cases i with
    | zero => exact Or.inl hi
    | succ j => exact Or.inr ⟨j, malformedIdx_cons_succ.mp hi⟩
  · rintro (h0 | ⟨j, hj⟩)
    · exact ⟨0, h0⟩
    · exact ⟨j + 1, malformedIdx_cons_succ.mpr hj⟩

/-- The scan flags a string exactly when some percent sign in it is not
followed by two hexadecimal digits. -/
theorem scanPath_iff_malformed : ∀ l, scanPath l = true ↔ malformed l
  | [] => by
    simp only [scanPath]
    constructor
    · intro h
      exact absurd h (by decide)
    · rintro ⟨i, hi, _⟩
      simp at hi
  | c :: rest => by
    by_cases hc : c = '%'
    · subst hc
      match rest with
      | [] =>
        simp only [scanPath, malformed_cons]
        constructor
        · intro _
          refine Or.inl ⟨rfl, ?_⟩
          rintro ⟨c1, c2, h1, _⟩
          simp at h1
        · intro _
          rfl
      | [c1] =>
        simp only [scanPath, malformed_cons]
        constructor
        · intro _
          refine Or.inl ⟨rfl, ?_⟩
          rintro ⟨d1, d2, h1, h2, _⟩
          simp at h2
        · intro _
          rfl
      | c1 :: c2 :: rest2 =>
        by_cases hhex : (hex_digits.contains c1 && hex_digits.contains c2) = true
        · have h1 := (Bool.and_eq_true _ _).mp hhex
          have key : scanPath ('%' :: c1 :: c2 :: rest2) = scanPath rest2 := by
            simp only [scanPath, hhex, if_true, reduceIte]
          rw [key, scanPath_iff_malformed rest2]
          constructor
          · rintro ⟨i, hi⟩
            exact ⟨i + 3, by
              rw [show i + 3 = (i + 2) + 1 from rfl]
              rw [malformedIdx_cons_succ, malformedIdx_cons_succ, malformedIdx_cons_succ]
              exact hi⟩
          · rintro ⟨i, hi⟩
            match i with
            | 0 =>
              exact absurd hi (by
                rintro ⟨_, hno⟩
                exact hno ⟨c1, c2, rfl, rfl, h1.1, h1.2⟩)
            | 1 =>
              rw [malformedIdx_cons_succ] at hi
              exact absurd hi.1 (by simp [hex_ne_pct h1.1])
            | 2 =>
              rw [malformedIdx_cons_succ, malformedIdx_cons_succ] at hi
              exact absurd hi.1 (by simp [hex_ne_pct h1.2])
            | (j + 3) =>
              rw [show j + 3 = (j + 2) + 1 from rfl] at hi
              rw [malformedIdx_cons_succ, malformedIdx_cons_succ, malformedIdx_cons_succ] at hi
              exact ⟨j, hi⟩
        · have hb : (hex_digits.contains c1 && hex_digits.contains c2) = false := by
            simpa using hhex
          have key : scanPath ('%' :: c1 :: c2 :: rest2) = true := by
            simp only [scanPath, hb]
            rfl
          rw [key]
          constructor
          · intro _
            refine ⟨0, rfl, ?_⟩
            rintro ⟨d1, d2, h1, h2, hx1, hx2⟩
            simp only [List.get?_cons_succ, List.get?_cons_zero, Option.some.injEq] at h1 h2
            subst h1
            subst h2
            rw [hx1, hx2] at hb
            exact absurd hb (by decide)
          · intro _
            rfl
    · have key : scanPath (c :: rest) = scanPath rest := by
        rw [scanPath.eq_def]
        simp [hc]
      rw [key, scanPath_iff_malformed rest, malformed_cons]
      constructor
      · exact Or.inr
      · rintro (⟨h0, _⟩ | h)
        · simp only [List.get?_cons_zero, Option.some.injEq] at h0
          exact absurd h0 hc
        · exact h

/-- A malformed percent escape forces a percent sign to occur in the string. -/
theorem malformed_contains_pct {l : List Char} (h : malformed l) :
    l.contains '%' = true := by
  obtain ⟨i, hi, _⟩ := h
  exact List.elem_eq_true_of_mem (List.get?_mem hi)

/-- is_invalid_path agrees with the declarative malformed-escape condition:
the fast-path guards of checker.py lines 70-71 do not change the verdict. -/
theorem is_invalid_path_iff_malformed (p : String) :
    is_invalid_path p = true ↔ malformed p.data := by
  unfold is_invalid_path
  by_cases hguard : p.data.isEmpty || !(p.data.contains '%')
  · simp only [hguard, if_true]
    constructor
    · intro h
      exact absurd h (by decide)
    · intro hm
      have hpct := malformed_contains_pct hm
      rcases Bool.or_eq_true _ _ |>.mp hguard with he | hn
      · obtain ⟨i, hi, _⟩ := hm
        have : p.data = [] := by simpa [List.isEmpty_iff] using he
        rw [this] at hi
        simp at hi
      · rw [hpct] at hn
        exact absurd hn (by decide)
  · simp only [hguard, if_false]
    exact scanPath_iff_malformed p.data

/-! ## has_invalid_ws_path (checker.py, lines 81-101) -/

/-- The websocket test of checker.py lines 86-90, applied to a transport dict:
the type value must be the string "ws" or "websocket" (Python tuple membership
uses equality, so only strings can match) and the path value must be a string
that is_invalid_path flags. -/
def transport_bad (tf : JFields) : Bool :=
  match jget tf "type" with
  | some (.str t) =>
    if t = "ws" || t = "websocket" then
      match jget tf "path" with
      | some (.str p) => is_invalid_path p
      | _ => false
    else false
  | _ => false

mutual

/-- checker.py recurse (lines 82-100): a dict is flagged if its transport entry
is a flagged websocket dict, if recursing into the transport flags it, or if
any of its values is flagged; a list is flagged if any item is. -/
def ws_recurse : JVal → Bool
  | .obj fs => ws_transport_check fs || ws_fieldsAny fs
  | .arr its => ws_itemsAny its
  | .str _ => false
  | .num _ => false
  | .jbool _ => false
  | .null => false

/-- Fusion of `transport = d.get("transport"); if isinstance(transport, dict)`
(checker.py lines 84-92) with the lookup itself, so that the recursion stays
structural; ws_transport_check_eq_jget below proves it equal to the
get-then-test phrasing. -/
def ws_transport_check : JFields → Bool
  | .fnil => false
  | .fcons k v fs =>
    if k = "transport" then
      match v with
      | .obj tf => transport_bad tf || ws_recurse (.obj tf)
      | _ => false
    else ws_transport_check fs

/-- checker.py lines 93-95: `for v in d.values(): if recurse(v)`. -/
def ws_fieldsAny : JFields → Bool
  | .fnil => false
  | .fcons _ v fs => ws_recurse v || ws_fieldsAny fs

/-- checker.py lines 96-99: `for item in d: if recurse(item)`. -/
def ws_itemsAny : JItems → Bool
  | .inil => false
  | .icons v its => ws_recurse v || ws_itemsAny its

end

/-- checker.py line 101: has_invalid_ws_path runs recurse on the outbound. -/
def has_invalid_ws_path (ob : JVal) : Bool := ws_recurse ob

/-- ws_transport_check agrees with the get-then-test phrasing of checker.py
lines 84-92: it fires exactly when the first "transport" value is a dict that
the websocket test or the recursion into the transport flags. -/
theorem ws_transport_check_iff : ∀ fs, (ws_transport_check fs = true ↔
    ∃ tf, jget fs "transport" = some (.obj tf) ∧
      (transport_bad tf || ws_recurse (.obj tf)) = true) := by
  intro fs
  generalize hn : sizeOf fs = n
  induction n using Nat.strong_induction_on generalizing fs with
  | _ n ih =>
    cases fs with
    | fnil => simp [ws_transport_check, jget]
    | fcons k v fs =>
      by_cases hk : k = "transport"
      · subst hk
        cases v with
        | obj tf =>
          simp [ws_transport_check, jget]
        | str s => simp [ws_transport_check, jget]
        | num m => simp [ws_transport_check, jget]
        | jbool b => simp [ws_transport_check, jget]
        | null => simp [ws_transport_check, jget]
        | arr its => simp [ws_transport_check, jget]
      · subst hn
        have h1 : ws_transport_check (JFields.fcons k v fs) = ws_transport_check fs := by
          conv_lhs => rw [ws_transport_check.eq_def]
          exact if_neg hk
        have h2 : jget (JFields.fcons k v fs) "transport" = jget fs "transport" := if_neg hk
        rw [h1, h2]
        exact ih (sizeOf fs) (by simp only [JFields.fcons.sizeOf_spec]; omega) fs rfl

/-- The transport dict is of websocket type, read declaratively. -/
def WsType (tf : JFields) : Prop :=
  jget tf "type" = some (.str "ws") ∨ jget tf "type" = some (.str "websocket")

/-- The transport dict carries a string path with a malformed percent escape. -/
def BadPath (tf : JFields) : Prop :=
  ∃ p, jget tf "path" = some (.str p) ∧ malformed p.data

/-- Declarative reading of the C6 claim: somewhere in the nested outbound a
dict has a websocket-typed transport whose string path contains a percent sign
not followed by two hexadecimal digits. -/
inductive HasBadWs : JVal → Prop where
  | transport (fs : JFields) (tf : JFields) :
      jget fs "transport" = some (.obj tf) → WsType tf → BadPath tf →
      HasBadWs (.obj fs)
  | objChild (fs : JFields) (v : JVal) :
      v ∈ fvals fs → HasBadWs v → HasBadWs (.obj fs)
  | arrChild (its : JItems) (v : JVal) :
      v ∈ ivals its → HasBadWs v → HasBadWs (.arr its)

theorem transport_bad_iff (tf : JFields) :
    transport_bad tf = true ↔ WsType tf ∧ BadPath tf := by
  constructor
  · intro h
    unfold transport_bad at h
    rcases htype : jget tf "type" with _ | tv <;> rw [htype] at h
    · simp at h
    · cases tv with
      | str t =>
        have h2 : (if (t = "ws" || t = "websocket") = true then
            (match jget tf "path" with
             | some (.str p) => is_invalid_path p
             | _ => false)
          else false) = true := h
        clear h
        by_cases hb : (t = "ws" || t = "websocket") = true
        · rw [if_pos hb] at h2
          have h := h2
          rcases hpath : jget tf "path" with _ | pv <;> rw [hpath] at h
          · simp at h
          · cases pv with
            | str p =>
              refine ⟨?_, p, hpath, (is_invalid_path_iff_malformed p).mp h⟩
              rcases Bool.or_eq_true _ _ |>.mp hb with hw | hw
              · exact Or.inl (by rw [htype, show t = "ws" from by simpa using hw])
              · exact Or.inr (by rw [htype, show t = "websocket" from by simpa using hw])
            | num n => simp at h
            | jbool b => simp at h
            | null => simp at h
            | obj o => simp at h
            | arr a => simp at h
        · rw [if_neg hb] at h2
          simp at h2
      | num n => simp at h
      | jbool b => simp at h
      | null => simp at h
      | obj o => simp at h
      | arr a => simp at h
  · rintro ⟨hty, p, hpath, hm⟩
    unfold transport_bad
    have hflag := (is_invalid_path_iff_malformed p).mpr hm
    rcases hty with h | h <;> rw [h] <;> simp [hpath, hflag]

theorem jget_sizeOf : ∀ (fs : JFields) (k : String) (v : JVal),
    jget fs k = some v → sizeOf v < sizeOf fs
  | .fnil, k, v, h => by simp [jget] at h
  | .fcons k1 v1 fs, k, v, h => by
    unfold jget at h
    by_cases hk : k1 = k
    · rw [if_pos hk] at h
      injection h with h
      subst h
      simp only [JFields.fcons.sizeOf_spec]
      omega
    · rw [if_neg hk] at h
      have := jget_sizeOf fs k v h
      simp only [JFields.fcons.sizeOf_spec]
      omega

theorem jget_mem_fvals : ∀ (fs : JFields) (k : String) (v : JVal),
    jget fs k = some v → v ∈ fvals fs
  | .fcons k1 v1 fs, k, v, h => by
    unfold jget at h
    by_cases hk : k1 = k
    · rw [if_pos hk] at h
      injection h with h
      subst h
      simp [fvals]
    · rw [if_neg hk] at h
      simp [fvals]
      exact Or.inr (jget_mem_fvals fs k v h)
  | .fnil, k, v, h => by simp [jget] at h

mutual

theorem ws_recurse_sound : ∀ v, ws_recurse v = true → HasBadWs v
  | .obj fs, h => by
    have h2 : (ws_transport_check fs || ws_fieldsAny fs) = true := h
    rcases Bool.or_eq_true _ _ |>.mp h2 with h3 | h3
    · obtain ⟨tf, hget, hflag⟩ := (ws_transport_check_iff fs).mp h3
      rcases Bool.or_eq_true _ _ |>.mp hflag with h4 | h4
      · obtain ⟨hty, hpath⟩ := (transport_bad_iff tf).mp h4
        exact HasBadWs.transport fs tf hget hty hpath
      · exact HasBadWs.objChild fs (.obj tf) (jget_mem_fvals fs _ _ hget)
          (ws_recurse_sound (.obj tf) h4)
    · obtain ⟨v, hv, hbad⟩ := ws_fieldsAny_sound fs h3
      exact HasBadWs.objChild fs v hv hbad
  | .arr its, h => by
    obtain ⟨v, hv, hbad⟩ := ws_itemsAny_sound its h
    exact HasBadWs.arrChild its v hv hbad
termination_by v _ => sizeOf v
decreasing_by
  · have := jget_sizeOf fs "transport" (JVal.obj tf) hget
    simp only [JVal.obj.sizeOf_spec] at *
    omega
  · simp only [JVal.obj.sizeOf_spec]
    omega
  · simp only [JVal.arr.sizeOf_spec]
    omega

theorem ws_fieldsAny_sound : ∀ fs, ws_fieldsAny fs = true → ∃ v ∈ fvals fs, HasBadWs v
  | .fcons k v fs, h => by
    have h2 : (ws_recurse v || ws_fieldsAny fs) = true := h
    rcases Bool.or_eq_true _ _ |>.mp h2 with h3 | h3
    · exact ⟨v, by simp [fvals], ws_recurse_sound v h3⟩
    · obtain ⟨w, hw, hbad⟩ := ws_fieldsAny_sound fs h3
      exact ⟨w, by simp [fvals]; exact Or.inr hw, hbad⟩
termination_by fs _ => sizeOf fs
decreasing_by
  · simp only [JFields.fcons.sizeOf_spec]
    omega
  · simp only [JFields.fcons.sizeOf_spec]
    omega

theorem ws_itemsAny_sound : ∀ its, ws_itemsAny its = true → ∃ v ∈ ivals its, HasBadWs v
  | .icons v its, h => by
    have h2 : (ws_recurse v || ws_itemsAny its) = true := h
    rcases Bool.or_eq_true _ _ |>.mp h2 with h3 | h3
    · exact ⟨v, by simp [ivals], ws_recurse_sound v h3⟩
    · obtain ⟨w, hw, hbad⟩ := ws_itemsAny_sound its h3
      exact ⟨w, by simp [ivals]; exact Or.inr hw, hbad⟩
termination_by its _ => sizeOf its
decreasing_by
  · simp only [JItems.icons.sizeOf_spec]
    omega
  · simp only [JItems.icons.sizeOf_spec]
    omega

end

theorem ws_fieldsAny_complete : ∀ fs (v : JVal),
    v ∈ fvals fs → ws_recurse v = true → ws_fieldsAny fs = true
  | .fcons k w fs, v, hmem, hv => by
    rcases List.mem_cons.mp (by simpa [fvals] using hmem) with rfl | hmem2
    · show (ws_recurse v || ws_fieldsAny fs) = true
      simp [hv]
    · show (ws_recurse w || ws_fieldsAny fs) = true
      simp [ws_fieldsAny_complete fs v hmem2 hv]
  | .fnil, v, hmem, _ => by simp [fvals] at hmem

theorem ws_itemsAny_complete : ∀ its (v : JVal),
    v ∈ ivals its → ws_recurse v = true → ws_itemsAny its = true
  | .icons w its, v, hmem, hv => by
    rcases List.mem_cons.mp (by simpa [ivals] using hmem) with rfl | hmem2
    · show (ws_recurse v || ws_itemsAny its) = true
      simp [hv]
    · show (ws_recurse w || ws_itemsAny its) = true
      simp [ws_itemsAny_complete its v hmem2 hv]
  | .inil, v, hmem, _ => by simp [ivals] at hmem

theorem ws_recurse_complete : ∀ v, HasBadWs v → ws_recurse v = true := by
  intro v h
  induction h with
  | transport fs tf hget hty hpath =>
    show (ws_transport_check fs || ws_fieldsAny fs) = true
    have hc : ws_transport_check fs = true :=
      (ws_transport_check_iff fs).mpr
        ⟨tf, hget, by simp [(transport_bad_iff tf).mpr ⟨hty, hpath⟩]⟩
    simp [hc]
  | objChild fs v hmem hbad ih =>
    show (ws_transport_check fs || ws_fieldsAny fs) = true
    simp [ws_fieldsAny_complete fs v hmem ih]
  | arrChild its v hmem hbad ih =>
    show ws_itemsAny its = true
    exact ws_itemsAny_complete its v hmem ih

/-- C6: the WS-path validator marks an outbound invalid exactly when some
nested websocket transport object carries a string path containing a percent
sign not followed by two hexadecimal digits (HasBadWs states this
declaratively, via the malformed-escape predicate); a path whose every percent
sign begins a well-formed two-hex-digit escape, or that contains none, never
triggers it. -/
theorem c6_has_invalid_ws_path_iff_bad_escape (ob : JVal) :
    has_invalid_ws_path ob = true ↔ HasBadWs ob :=
  ⟨fun h => ws_recurse_sound ob h, fun h => ws_recurse_complete ob h⟩

/-! ## sanitize_outbound (checker.py, lines 118-142) -/

/-- checker.py line 122: the fields sing-box requires as strings. -/
def string_fields : List String :=
  ["password", "uuid", "id", "shortId", "short_id", "alterId", "flow",
   "method", "host", "path", "server_name"]

/-- checker.py lines 124-130 for one value: int/float/bool values become
their Python string form (numbers are modelled as integers; Python renders
booleans capitalized), None becomes the empty string, everything else is
kept. -/
def str_coerce : JVal → JVal
  | .num n => .str (toString n)
  | .jbool b => .str (if b then "True" else "False")
  | .null => .str ""
  | v => v

mutual

/-- checker.py lines 118-140 folded over a dict's pairs.  The source runs two
loops: lines 124-130 coerce the scalar values of string_fields keys, then
lines 133-139 recurse into every value that is a dict (or into the dict items
of a list).  The two loops commute per key, because coercion rewrites only
scalars and the recursive pass touches only dicts and lists, so they are
fused here into one pass per pair (sanitizePair). -/
def sanitizeFields : JFields → JFields
  | .fnil => .fnil
  | .fcons k v fs => .fcons k (sanitizePair k v) (sanitizeFields fs)

/-- What sanitize_outbound does to one key/value pair: a dict value is
sanitized recursively (lines 133-135), a list value has its dict items
sanitized (lines 136-139), and a scalar value is coerced when the key is in
string_fields (lines 124-130). -/
def sanitizePair : String → JVal → JVal
  | _, .obj ofs => .obj (sanitizeFields ofs)
  | _, .arr its => .arr (sanitizeItems its)
  | k, w => if string_fields.contains k then str_coerce w else w

/-- checker.py lines 136-139: only the dict items of a list are sanitized
(nested lists inside lists are not descended into). -/
def sanitizeItems : JItems → JItems
  | .inil => .inil
  | .icons v its =>
    .icons (match v with
            | .obj fs => .obj (sanitizeFields fs)
            | w => w)
      (sanitizeItems its)

end

/-- checker.py lines 118-120 and 140: sanitize_outbound returns non-dict
arguments unchanged and rewrites a dict as above. -/
def sanitize_outbound : JVal → JVal
  | .obj fs => .obj (sanitizeFields fs)
  | v => v

mutual

theorem sanitizeFields_idem : ∀ fs, sanitizeFields (sanitizeFields fs) = sanitizeFields fs
  | .fnil => rfl
  | .fcons k v fs => by
    simp [sanitizeFields, sanitizePair_idem k v, sanitizeFields_idem fs]

theorem sanitizePair_idem : ∀ k v, sanitizePair k (sanitizePair k v) = sanitizePair k v
  | k, .obj ofs => by
    simp [sanitizePair, sanitizeFields_idem ofs]
  | k, .arr its => by
    simp [sanitizePair, sanitizeItems_idem its]
  | k, .str s => by
    by_cases hk : k ∈ string_fields <;> simp [sanitizePair, hk, str_coerce]
  | k, .num n => by
    by_cases hk : k ∈ string_fields <;> simp [sanitizePair, hk, str_coerce]
  | k, .jbool b => by
    by_cases hk : k ∈ string_fields <;> cases b <;>
      simp [sanitizePair, hk, str_coerce]
  | k, .null => by
    by_cases hk : k ∈ string_fields <;> simp [sanitizePair, hk, str_coerce]

theorem sanitizeItems_idem : ∀ its, sanitizeItems (sanitizeItems its) = sanitizeItems its
  | .inil => rfl
  | .icons v its => by
    cases v with
    | obj fs => simp [sanitizeItems, sanitizeFields_idem fs, sanitizeItems_idem its]
    | str s => simp [sanitizeItems, sanitizeItems_idem its]
    | num n => simp [sanitizeItems, sanitizeItems_idem its]
    | jbool b => simp [sanitizeItems, sanitizeItems_idem its]
    | null => simp [sanitizeItems, sanitizeItems_idem its]
    | arr a => simp [sanitizeItems, sanitizeItems_idem its]

end

/-- C8: the sanitizer's string-coercion pass is idempotent: applying
sanitize_outbound twice yields the same configuration as applying it once. -/
theorem c8_sanitize_outbound_idempotent (ob : JVal) :
    sanitize_outbound (sanitize_outbound ob) = sanitize_outbound ob := by
  cases ob with
  | obj fs =>
    show JVal.obj (sanitizeFields (sanitizeFields fs)) = JVal.obj (sanitizeFields fs)
    rw [sanitizeFields_idem fs]
  | str s => rfl
  | num n => rfl
  | jbool b => rfl
  | null => rfl
  | arr a => rfl

/-! ## Shallow copy aliasing at checker.py line 142 (claim C2) -/

/-- The recursive pass of checker.py lines 133-139 applied to one value: a
dict is sanitized in full, a list has its dict items sanitized, and scalars
are left alone.  Used below to describe which parts of the ORIGINAL outbound
the batch sanitization mutates. -/
def sanitizeValuePass : JVal → JVal
  | .obj fs => .obj (sanitizeFields fs)
  | .arr its => .arr (sanitizeItems its)
  | v => v

/-- What the ORIGINAL outbound looks like after checker.py line 142 runs
`sanitize_outbound(ob.copy())`: `dict.copy()` is shallow, so the copy's pairs
alias the original's value objects.  The top-level coercions of lines 124-130
rebind keys in the copy only and leave the original's scalars alone, but the
recursive pass of lines 133-139 mutates the shared nested dicts (and the dict
items of shared lists) in place, so those rewrites land inside the original
too (assuming the usual tree-shaped configuration with no internal sharing).
originalAfterFields gives the per-pair effect on the original: every value is
hit by the in-place recursive pass, none by the copy-local top-level
coercion. -/
def originalAfterFields : JFields → JFields
  | .fnil => .fnil
  | .fcons k v fs => .fcons k (sanitizeValuePass v) (originalAfterFields fs)

/-- The whole-outbound view of the shallow-copy effect described above. -/
def originalAfter : JVal → JVal
  | .obj fs => .obj (originalAfterFields fs)
  | v => v

/-- A concrete outbound with a numeric nested transport.path, as produced by
loosely-typed upstream YAML. -/
def c2_outbound : JVal :=
  .obj (.fcons "server" (.str "x.example.com")
    (.fcons "transport" (.obj (.fcons "type" (.str "ws")
      (.fcons "path" (.num 123) .fnil))) .fnil))

/-- C2 (code bug): sanitizing the shallow copy rewrites the original's nested
transport mapping in place (path 123 becomes "123"), so the original Node's
outbound does NOT remain unchanged, contradicting the claim that all
rewriting happens on a copy. -/
theorem c2_shallow_copy_mutates_original :
    originalAfter c2_outbound ≠ c2_outbound ∧
    originalAfter c2_outbound =
      .obj (.fcons "server" (.str "x.example.com")
        (.fcons "transport" (.obj (.fcons "type" (.str "ws")
          (.fcons "path" (.str "123") .fnil))) .fnil)) := by
  have heval : originalAfter c2_outbound =
      .obj (.fcons "server" (.str "x.example.com")
        (.fcons "transport" (.obj (.fcons "type" (.str "ws")
          (.fcons "path" (.str "123") .fnil))) .fnil)) := rfl
  refine ⟨?_, heval⟩
  rw [heval]
  intro h
  simp [c2_outbound] at h

/-! ## check_nodes (checker.py, lines 55-169) -/

/-- Modelled from the spec (section 3): the Node record is defined in the
repository's subs.py, which is not among the provided sources; its fields are
those used by checker.py and run_once.py: a unique tag, an engine outbound
configuration, an optional share-link export and an optional clash-style
proxy dict export. -/
structure Node where
  tag : String
  outbound : JVal
  export_link : Option String
  export_clash_proxy : Option JFields
deriving DecidableEq

/-- checker.py lines 15-18: the aggregate of surviving export forms. -/
structure CheckResult where
  healthy_links : List String
  healthy_clash_proxies : List JFields
deriving DecidableEq

/-- checker.py lines 103-112: outbounds flagged by has_invalid_ws_path are
removed from the batch before engine startup (removal of every flagged index
equals filtering by the predicate). -/
def filtered_outbounds (nodes : List Node) : List JVal :=
  (nodes.map (fun n => n.outbound)).filter (fun ob => !(has_invalid_ws_path ob))

/-- checker.py line 142: the engine is then started with the sanitized copies
of the filtered outbounds (line 152). -/
def engine_outbounds (nodes : List Node) : List JVal :=
  (filtered_outbounds nodes).map (fun ob => sanitize_outbound ob)

/-- checker.py line 167: the gather iterates the original `nodes` parameter,
so one delay test is issued per node tag regardless of outbound filtering. -/
def tested_tags (nodes : List Node) : List String :=
  nodes.map (fun n => n.tag)

/-- The per-node worker `one` of checker.py lines 154-166, with the engine's
delay_test abstracted as an oracle from tag to outcome: Except.error for an
exception, ok none for a missing delay, ok (some d) for a measured delay.
The try/except of lines 156-159 absorbs the exception and returns, a None
delay returns (lines 160-161), and otherwise the truthy export forms are
appended (lines 162-165; Python `if n.export_link:` is false for None and for
the empty string, and `if n.export_clash_proxy:` for None and the empty
dict).  The returned pair is this node's contribution to the shared
accumulators. -/
def run_one (delay_test : String → Except Unit (Option Int)) (n : Node) :
    List String × List JFields :=
  match delay_test n.tag with
  | .error _ => ([], [])
  | .ok none => ([], [])
  | .ok (some _) =>
    ((match n.export_link with
      | some s => if s = "" then [] else [s]
      | none => []),
     (match n.export_clash_proxy with
      | some .fnil => []
      | some fs => [fs]
      | none => []))

/-- checker.py lines 55-169 as a function of the engine-start outcome (line
152) and the delay-test oracle: a startup failure propagates out of the
`async with` block unhandled, aborting the stage; otherwise every node's
worker contribution is collected into a CheckResult.  Cooperative concurrency
is abstracted by collecting contributions in node order (the claims below use
only membership and emptiness); per-worker exceptions are already absorbed
inside run_one. -/
def check_nodes (startup : Except Unit Unit)
    (delay_test : String → Except Unit (Option Int)) (nodes : List Node) :
    Except Unit CheckResult :=
  match startup with
  | .error e => .error e
  | .ok _ =>
    .ok { healthy_links := (nodes.map (fun n => (run_one delay_test n).1)).flatten,
          healthy_clash_proxies := (nodes.map (fun n => (run_one delay_test n).2)).flatten }

/-- C7: a node contributes exactly when its delay test returns a present
delay, and then exactly its truthy export forms; an exception or an absent
delay contributes nothing; and with the engine started the stage always
returns an ok CheckResult (no worker exception escapes it). -/
theorem c7_delay_success_contribution
    (delay_test : String → Except Unit (Option Int)) (n : Node) :
    ((∃ d, delay_test n.tag = .ok (some d)) →
      ((∀ s, s ∈ (run_one delay_test n).1 ↔ (n.export_link = some s ∧ s ≠ "")) ∧
       (∀ fs, fs ∈ (run_one delay_test n).2 ↔
          (n.export_clash_proxy = some fs ∧ fs ≠ .fnil)))) ∧
    ((∀ d, delay_test n.tag ≠ .ok (some d)) → run_one delay_test n = ([], [])) ∧
    (∀ nodes, ∃ res, check_nodes (.ok ()) delay_test nodes = .ok res) := by
  refine ⟨?_, ?_, ?_⟩
  · rintro ⟨d, hd⟩
    constructor
    · intro s
      unfold run_one
      rw [hd]
      cases hl : n.export_link with
      | none => simp
      | some t =>
        by_cases ht : t = ""
        · subst ht
          simp
          exact fun h => h.symm
        · simp [ht]
          constructor
          · rintro rfl
            exact ⟨rfl, ht⟩
          · rintro ⟨h1, _⟩
            exact h1.symm
    · intro fs
      unfold run_one
      rw [hd]
      cases hp : n.export_clash_proxy with
      | none => simp
      | some g =>
        cases g with
        | fnil =>
          simp
          exact fun h => h.symm
        | fcons k v rest =>
          simp
          constructor
          · rintro rfl
            exact ⟨rfl, fun h => JFields.noConfusion h⟩
          · rintro ⟨h1, _⟩
            exact h1.symm
  · intro hno
    unfold run_one
    cases hd : delay_test n.tag with
    | error e => rfl
    | ok o =>
      cases o with
      | none => rfl
      | some d => exact absurd hd (hno d)
  · intro nodes
    exact ⟨_, rfl⟩

/-- A node with an invalid websocket path escape in its outbound, used by the
C10 witness. -/
def c10_badNode : Node :=
  { tag := "bad",
    outbound := .obj (.fcons "transport" (.obj (.fcons "type" (.str "ws")
      (.fcons "path" (.str "/a%2@b") .fnil))) .fnil),
    export_link := some "link-bad",
    export_clash_proxy := none }

/-- C10: a node whose outbound the WS-path check flags is excluded from the
outbound set built for the engine, but stays in the iterated batch, so a
delay test is still issued for its tag. -/
theorem c10_bad_ws_node_still_tested (nodes : List Node) (n : Node)
    (hmem : n ∈ nodes) (hbad : has_invalid_ws_path n.outbound = true) :
    n.outbound ∉ filtered_outbounds nodes ∧ n.tag ∈ tested_tags nodes := by
  constructor
  · intro hc
    have h2 := (List.mem_filter.mp hc).2
    rw [hbad] at h2
    exact absurd h2 (by decide)
  · exact List.mem_map.mpr ⟨n, hmem, rfl⟩

/-- Witness for C10 at a concrete bad-path node. -/
theorem c10_witness :
    c10_badNode.outbound ∉ filtered_outbounds [c10_badNode] ∧
    c10_badNode.tag ∈ tested_tags [c10_badNode] :=
  c10_bad_ws_node_still_tested [c10_badNode] c10_badNode
    (List.mem_singleton.mpr rfl) (by rfl)

/-- The delay oracle of the spec's end-to-end scenario: tag "a" measures
50 ms, tag "b" raises mid-test, every other tag reports no result. -/
def c7_delays : String → Except Unit (Option Int) :=
  fun t => if t = "a" then .ok (some 50) else if t = "b" then .error () else .ok none

/-- Scenario node "a": healthy, with both export forms present. -/
def c7_nodeA : Node :=
  { tag := "a", outbound := .obj .fnil, export_link := some "link-a",
    export_clash_proxy := some (.fcons "name" (.str "a") .fnil) }

/-- Scenario node "b": its delay test raises mid-test. -/
def c7_nodeB : Node :=
  { tag := "b", outbound := .obj .fnil, export_link := some "link-b",
    export_clash_proxy := some (.fcons "name" (.str "b") .fnil) }

/-- Witness for C7 on the spec's scenario: node "a" contributes its link,
node "b" contributes nothing, and the stage returns ok. -/
theorem c7_witness :
    ("link-a" ∈ (run_one c7_delays c7_nodeA).1 ↔
      (c7_nodeA.export_link = some "link-a" ∧ "link-a" ≠ "")) ∧
    run_one c7_delays c7_nodeB = ([], []) ∧
    (∃ res, check_nodes (.ok ()) c7_delays [c7_nodeA, c7_nodeB] = .ok res) :=
  ⟨((c7_delay_success_contribution c7_delays c7_nodeA).1 ⟨50, rfl⟩).1 "link-a",
   (c7_delay_success_contribution c7_delays c7_nodeB).2.1
     (fun _ h => Except.noConfusion h),
   (c7_delay_success_contribution c7_delays c7_nodeB).2.2 [c7_nodeA, c7_nodeB]⟩

/-! ## check_host.py: quorum, polling, and the per-endpoint chain -/

/-- check_host.py lines 18-26: a bare reachability target. -/
structure Endpoint where
  host : String
  port : Nat
  line : String
deriving DecidableEq

/-- check_host.py line 153: a result object counts as a success when it is a
dict carrying a time key and no error key. -/
def item_success : JVal → Bool
  | .obj fields => hasKey fields "time" && !(hasKey fields "error")
  | _ => false

/-- check_host.py lines 152-155: the inner loop with its break counts a node
as soon as one of its result items succeeds. -/
def anyItemSuccess : JItems → Bool
  | .inil => false
  | .icons v its => item_success v || anyItemSuccess its

/-- check_host.py lines 150-155: a probe node succeeds when its entry in the
poll payload is a list containing a successful item. -/
def node_success (data : JFields) (node : String) : Bool :=
  match jget data node with
  | some (.arr items) => anyItemSuccess items
  | _ => false

/-- check_host.py lines 148-155: thanks to the break, each probe node in
node_names adds at most one to the count, so the count is the number of
succeeding names. -/
def success_count (data : JFields) (names : List String) : Nat :=
  (names.filter (fun n => node_success data n)).length

/-- check_host.py line 156: the quorum test of one poll iteration. -/
def quorum_met (data : JFields) (names : List String) (min_success : Nat) : Bool :=
  decide (min_success ≤ success_count data names)

/-- The concrete poll payload for the C4 witness: probe "A" reports one
successful item, probe "B" two successful items (still counted once), probe
"C" one item that carries an error key and one without a time key. -/
def c4_payload : JFields :=
  .fcons "A" (.arr (.icons (.obj (.fcons "time" (.num 1) .fnil)) .inil))
    (.fcons "B" (.arr (.icons (.obj (.fcons "time" (.num 2) .fnil))
      (.icons (.obj (.fcons "time" (.num 3) .fnil)) .inil)))
      (.fcons "C" (.arr (.icons (.obj (.fcons "time" (.num 4)
        (.fcons "error" (.str "timeout") .fnil)))
        (.icons (.obj (.fcons "other" (.num 5) .fnil)) .inil))) .fnil))

/-- Outcome of one poll HTTP round inside _poll_tcp_result: non-200 status
(check_host.py line 140), JSON that is not a dict (line 144), or a dict
payload. -/
inductive PollResponse where
  | badStatus : PollResponse
  | notDict : PollResponse
  | payload : JFields → PollResponse

/-- check_host.py lines 136-159: the poll loop, with the network abstracted
as an oracle from poll time (in ms since the loop started) to response, and
request time abstracted to zero so that each iteration advances the clock by
exactly the 500 ms sleep of lines 141, 145 and 158.  The loop runs while
now < deadline (line 138); a non-200 or non-dict response is retried after
the sleep; a payload that meets the quorum returns True (lines 156-157);
when the clock reaches the deadline the loop exits and returns False (line
159).  Lean accepts this definition because deadline - now strictly
decreases, which is the termination half of claim C9. -/
def poll_loop (responses : Nat → PollResponse) (node_names : List String)
    (min_success : Nat) (deadline : Nat) (now : Nat) : Bool :=
  if now < deadline then
    match responses now with
    | .badStatus => poll_loop responses node_names min_success deadline (now + 500)
    | .notDict => poll_loop responses node_names min_success deadline (now + 500)
    | .payload data =>
      if quorum_met data node_names min_success then true
      else poll_loop responses node_names min_success deadline (now + 500)
  else false
termination_by deadline - now
decreasing_by
  all_goals omega

/-- check_host.py lines 134-137: _poll_tcp_result polls with a deadline of
max_wait seconds (converted here to ms) past the start time. -/
def _poll_tcp_result (responses : Nat → PollResponse) (node_names : List String)
    (max_wait : Nat) (min_success : Nat) : Bool :=
  poll_loop responses node_names min_success (max_wait * 1000) 0

theorem poll_loop_no_quorum (responses : Nat → PollResponse)
    (names : List String) (minS : Nat)
    (hq : ∀ t data, responses t = .payload data → quorum_met data names minS = false) :
    ∀ fuel deadline now, deadline - now ≤ fuel →
      poll_loop responses names minS deadline now = false := by
  intro fuel
  induction fuel with
  | zero =>
    intro deadline now hle
    rw [poll_loop]
    have hnot : ¬ now < deadline := by omega
    rw [if_neg hnot]
  | succ m ih =>
    intro deadline now hle
    rw [poll_loop]
    by_cases hlt : now < deadline
    · rw [if_pos hlt]
      cases hresp : responses now with
      | badStatus => exact ih deadline (now + 500) (by omega)
      | notDict => exact ih deadline (now + 500) (by omega)
      | payload data =>
        show (if quorum_met data names minS = true then true
              else poll_loop responses names minS deadline (now + 500)) = false
        rw [hq now data hresp, if_neg (by decide)]
        exact ih deadline (now + 500) (by omega)
    · rw [if_neg hlt]

/-- C9: the poll loop of _poll_tcp_result terminates (it is accepted as a
total function whose clock strictly approaches the deadline), and whenever no
poll response ever meets the quorum it returns False — the endpoint resolves
to "not reachable" when the wall-clock budget elapses rather than looping
forever. -/
theorem c9_poll_deadline_returns_false (responses : Nat → PollResponse)
    (node_names : List String) (max_wait min_success : Nat)
    (hq : ∀ t data, responses t = .payload data →
        quorum_met data node_names min_success = false) :
    _poll_tcp_result responses node_names max_wait min_success = false :=
  poll_loop_no_quorum responses node_names min_success hq
    (max_wait * 1000) (max_wait * 1000) 0 (by omega)

/-- Witness for C9: a server that always answers non-200 never yields quorum,
so the poll resolves to False after the 15-second budget. -/
theorem c9_witness :
    _poll_tcp_result (fun _ => .badStatus) ["n1", "n2"] 15 2 = false :=
  c9_poll_deadline_returns_false (fun _ => .badStatus) ["n1", "n2"] 15 2
    (fun _ _ h => PollResponse.noConfusion h)

/-- C4: with probes A and B succeeding and C not, the per-response count is
2, so quorum 2 is met and quorum 3 is not, and each probe node is counted at
most once however many successful items it reports (node_success is a single
boolean per name); consequently _poll_tcp_result declares the endpoint
reachable on such a response with minimum quorum 2 and keeps polling to a
False verdict with minimum quorum 3. -/
theorem c4_quorum_two_of_three (data : JFields) (A B C : String)
    (hA : node_success data A = true) (hB : node_success data B = true)
    (hC : node_success data C = false) :
    success_count data [A, B, C] = 2 ∧
    quorum_met data [A, B, C] 2 = true ∧
    quorum_met data [A, B, C] 3 = false ∧
    (∀ max_wait : Nat, 0 < max_wait →
      _poll_tcp_result (fun _ => .payload data) [A, B, C] max_wait 2 = true) ∧
    (∀ max_wait : Nat,
      _poll_tcp_result (fun _ => .payload data) [A, B, C] max_wait 3 = false) := by
  have hcount : success_count data [A, B, C] = 2 := by
    simp [success_count, List.filter, hA, hB, hC]
  have hq2 : quorum_met data [A, B, C] 2 = true := by
    simp [quorum_met, hcount]
  have hq3 : quorum_met data [A, B, C] 3 = false := by
    simp [quorum_met, hcount]
  refine ⟨hcount, hq2, hq3, ?_, ?_⟩
  · intro mw hmw
    unfold _poll_tcp_result
    rw [poll_loop, if_pos (by omega)]
    show (if quorum_met data [A, B, C] 2 = true then true
          else poll_loop (fun _ => .payload data) [A, B, C] 2 (mw * 1000) (0 + 500)) = true
    rw [hq2]
    rfl
  · intro mw
    unfold _poll_tcp_result
    exact poll_loop_no_quorum (fun _ => .payload data) [A, B, C] 3
      (fun t data' h => by
        injection h with h
        subst h
        exact hq3)
      (mw * 1000) (mw * 1000) 0 (by omega)

/-- Witness for C4 at the concrete payload (probe "B" reports two successful
items and still counts once). -/
theorem c4_witness :
    success_count c4_payload ["A", "B", "C"] = 2 ∧
    quorum_met c4_payload ["A", "B", "C"] 2 = true ∧
    quorum_met c4_payload ["A", "B", "C"] 3 = false ∧
    _poll_tcp_result (fun _ => .payload c4_payload) ["A", "B", "C"] 15 2 = true ∧
    _poll_tcp_result (fun _ => .payload c4_payload) ["A", "B", "C"] 15 3 = false :=
  ⟨(c4_quorum_two_of_three c4_payload "A" "B" "C" rfl rfl rfl).1,
   (c4_quorum_two_of_three c4_payload "A" "B" "C" rfl rfl rfl).2.1,
   (c4_quorum_two_of_three c4_payload "A" "B" "C" rfl rfl rfl).2.2.1,
   (c4_quorum_two_of_three c4_payload "A" "B" "C" rfl rfl rfl).2.2.2.1 15 (by omega),
   (c4_quorum_two_of_three c4_payload "A" "B" "C" rfl rfl rfl).2.2.2.2 15⟩

/-! ## reachable_from_country (check_host.py, lines 58-119) -/

/-- The three remote/engine interactions of one endpoint's chain in
check_host.py test_one (lines 92-111), abstracted as oracle outcomes:
submit (_start_tcp_check, line 94) yields an exception or an optional request
id; poll (_poll_tcp_result, line 97) yields an exception or a quorum verdict;
confirm (runner.delay_test, line 103) yields an exception or an optional
delay in ms. -/
structure TestEnv where
  submitRes : Except Unit (Option String)
  pollRes : Except Unit Bool
  confirmRes : Except Unit (Option Int)

/-- check_host.py lines 92-111: one endpoint's submit, poll, confirm chain.
ok true means the endpoint is appended to the ok list, ok false that the
worker returned without appending, and error that an uncaught exception
escaped the worker.  Only the confirm step sits inside try/except (lines
102-108); an exception there hits the bare `pass` of line 108 and control
falls through to the append at line 110.  Submit and poll run outside any
try/except, so their exceptions escape.  A confirmed delay is rejected when
absent, above max_delay_ms, or non-positive (line 104). -/
def test_one (hasApi : Bool) (max_delay_ms : Int) (env : TestEnv) : Except Unit Bool :=
  match env.submitRes with
  | .error e => .error e
  | .ok none => .ok false
  | .ok (some _) =>
    match env.pollRes with
    | .error e => .error e
    | .ok false => .ok false
    | .ok true =>
      if hasApi then
        match env.confirmRes with
        | .error _ => .ok true
        | .ok none => .ok false
        | .ok (some delay) =>
          if delay > max_delay_ms ∨ delay ≤ 0 then .ok false else .ok true
      else .ok true

/-- Input of one reachable_from_country run: the probe-node names fetched for
the country (line 72), the endpoints each with its oracle outcomes, whether a
sing-box path is configured (line 84), and the outcome of
SingBoxRunner.start (line 87). -/
structure RFCInput where
  node_names : List String
  endpoints : List (Endpoint × TestEnv)
  singbox_path : Bool
  startup : Except Unit Unit

/-- check_host.py lines 84-90: api and runner are set only when a sing-box
path is configured and startup succeeds; a startup exception is caught at
lines 89-90 and leaves them None (TCP-only mode). -/
def rfc_hasApi (inp : RFCInput) : Bool :=
  inp.singbox_path && (match inp.startup with
    | .ok _ => true
    | .error _ => false)

/-- True when the worker outcome is an escaped exception. -/
def isWorkerError : Except Unit Bool → Bool
  | .error _ => true
  | .ok _ => false

/-- True when the worker appended its endpoint. -/
def accepted (r : Except Unit Bool) : Bool :=
  match r with
  | .ok true => true
  | _ => false

/-- check_host.py lines 58-119: an empty probe-node list short-circuits to an
ok empty list (lines 74-76); otherwise the per-endpoint workers run under
asyncio.gather (line 113), which without return_exceptions re-raises the
first worker exception, so the function raises and the ok list is lost;
with no worker exception the ok list holds the accepted endpoints
(completion order abstracted to input order: the claims below use only
membership and emptiness). -/
def reachable_from_country (inp : RFCInput) (max_delay_ms : Int) :
    Except Unit (List Endpoint) :=
  if inp.node_names = [] then .ok []
  else if inp.endpoints.any
      (fun p => isWorkerError (test_one (rfc_hasApi inp) max_delay_ms p.2)) then
    .error ()
  else
    .ok ((inp.endpoints.filter
      (fun p => accepted (test_one (rfc_hasApi inp) max_delay_ms p.2))).map Prod.fst)

/-- run_once.py lines 93-104: the orchestrator wraps the reachability stage
in try/except and records zero results when the stage raises, then continues
the pipeline with the earlier stages' outputs. -/
def main_iran_ok (r : Except Unit (List Endpoint)) : List Endpoint :=
  match r with
  | .error _ => []
  | .ok l => l

/-- A concrete endpoint shared by the concrete scenarios below. -/
def ep0 : Endpoint := { host := "h.example.com", port := 443, line := "h.example.com:443" }

/-- C5: with the engine confirming after a successful submit and poll, a
delay equal to the configured maximum (default 800) is accepted, while a
delay one above the maximum, a non-positive delay, and an absent delay are
all rejected. -/
theorem c5_confirmation_gate (max_delay_ms : Int) (hpos : 0 < max_delay_ms) (rid : String) :
    test_one true max_delay_ms
      ⟨.ok (some rid), .ok true, .ok (some max_delay_ms)⟩ = .ok true ∧
    test_one true max_delay_ms
      ⟨.ok (some rid), .ok true, .ok (some (max_delay_ms + 1))⟩ = .ok false ∧
    (∀ d : Int, d ≤ 0 → test_one true max_delay_ms
      ⟨.ok (some rid), .ok true, .ok (some d)⟩ = .ok false) ∧
    test_one true max_delay_ms ⟨.ok (some rid), .ok true, .ok none⟩ = .ok false := by
  refine ⟨?_, ?_, ?_, rfl⟩
  · show (if max_delay_ms > max_delay_ms ∨ max_delay_ms ≤ 0 then
        Except.ok false else Except.ok true) = Except.ok true
    rw [if_neg (by omega)]
  · show (if max_delay_ms + 1 > max_delay_ms ∨ max_delay_ms + 1 ≤ 0 then
        Except.ok false else Except.ok true) = Except.ok false
    rw [if_pos (by omega)]
  · intro d hd
    show (if d > max_delay_ms ∨ d ≤ 0 then
        Except.ok false else Except.ok true) = Except.ok false
    rw [if_pos (Or.inr hd)]

/-- Witness for C5 at the default maximum of 800 ms. -/
theorem c5_witness :
    test_one true 800 ⟨.ok (some "rid"), .ok true, .ok (some 800)⟩ = .ok true ∧
    test_one true 800 ⟨.ok (some "rid"), .ok true, .ok (some 801)⟩ = .ok false ∧
    test_one true 800 ⟨.ok (some "rid"), .ok true, .ok (some 0)⟩ = .ok false ∧
    test_one true 800 ⟨.ok (some "rid"), .ok true, .ok none⟩ = .ok false :=
  ⟨(c5_confirmation_gate 800 (by omega) "rid").1,
   (c5_confirmation_gate 800 (by omega) "rid").2.1,
   (c5_confirmation_gate 800 (by omega) "rid").2.2.1 0 (by omega),
   (c5_confirmation_gate 800 (by omega) "rid").2.2.2⟩

/-- C1 counterexample: with the engine configured and started, an endpoint
whose confirm step raises an exception is nevertheless present in the
returned list: the except clause at check_host.py lines 107-108 is a bare
`pass`, and control falls through to the append at line 110.  This falsifies
the claim that every exception at any step of the chain yields "not
reachable" for the endpoint. -/
theorem c1_counterexample_confirm_exception_accepts :
    reachable_from_country
      { node_names := ["node1"],
        endpoints := [(ep0, ⟨.ok (some "rid"), .ok true, .error ()⟩)],
        singbox_path := true, startup := .ok () } 800 = .ok [ep0] := rfl

/-- C1 amended: an exception in the submit or poll step escapes the worker,
and any escaped worker exception aborts the whole stage through the gather
(the error propagates and every other endpoint's verdict is lost); an
exception in the confirm step is swallowed and the endpoint is accepted on
its TCP verdict alone.  Only non-exceptional failures yield "not reachable"
for that endpoint only. -/
theorem c1_amended_exception_semantics (maxd : Int) (env : TestEnv) :
    (env.submitRes = .error () → test_one true maxd env = .error ()) ∧
    (∀ r, env.submitRes = .ok (some r) → env.pollRes = .error () →
      test_one true maxd env = .error ()) ∧
    (∀ r, env.submitRes = .ok (some r) → env.pollRes = .ok true →
      env.confirmRes = .error () → test_one true maxd env = .ok true) ∧
    (∀ inp : RFCInput, inp.node_names ≠ [] →
      (inp.endpoints.any
        (fun p => isWorkerError (test_one (rfc_hasApi inp) maxd p.2))) = true →
      reachable_from_country inp maxd = .error ()) := by
  refine ⟨?_, ?_, ?_, ?_⟩
  · intro h
    simp [test_one, h]
  · intro r h1 h2
    simp [test_one, h1, h2]
  · intro r h1 h2 h3
    simp [test_one, h1, h2, h3]
  · intro inp hne hany
    unfold reachable_from_country
    rw [if_neg hne, if_pos hany]

/-- Witness for C1's amended theorem at concrete chains: a submit exception
errors, a poll exception errors, a confirm exception accepts, and one
erroring worker makes the stage error. -/
theorem c1_witness :
    test_one true 800 ⟨.error (), .ok true, .ok (some 100)⟩ = .error () ∧
    test_one true 800 ⟨.ok (some "r"), .error (), .ok (some 100)⟩ = .error () ∧
    test_one true 800 ⟨.ok (some "r"), .ok true, .error ()⟩ = .ok true ∧
    reachable_from_country
      { node_names := ["n"],
        endpoints := [(ep0, ⟨.error (), .ok true, .ok none⟩)],
        singbox_path := false, startup := .ok () } 800 = .error () :=
  ⟨(c1_amended_exception_semantics 800 ⟨.error (), .ok true, .ok (some 100)⟩).1 rfl,
   (c1_amended_exception_semantics 800
      ⟨.ok (some "r"), .error (), .ok (some 100)⟩).2.1 "r" rfl rfl,
   (c1_amended_exception_semantics 800
      ⟨.ok (some "r"), .ok true, .error ()⟩).2.2.1 "r" rfl rfl rfl,
   (c1_amended_exception_semantics 800 ⟨.error (), .ok true, .ok none⟩).2.2.2
      { node_names := ["n"], endpoints := [(ep0, ⟨.error (), .ok true, .ok none⟩)],
        singbox_path := false, startup := .ok () } (by decide) rfl⟩

/-- C3 counterexample: engine startup failure in the confirmation stage does
not abort it: reachable_from_country catches the startup exception
(check_host.py lines 89-90), proceeds TCP-only, and returns a non-empty ok
list instead of propagating an error with zero results. -/
theorem c3_counterexample_startup_failure_not_fatal :
    reachable_from_country
      { node_names := ["node1"],
        endpoints := [(ep0, ⟨.ok (some "rid"), .ok true, .ok (some 100)⟩)],
        singbox_path := true, startup := .error () } 800 = .ok [ep0] := rfl

/-- C3 amended: engine startup failure is fatal only to the delay-test
stage: check_nodes propagates it, and run_once.py line 45 calls check_nodes
outside any try/except, so the error leaves the orchestrator instead of
being recorded as zero results; in the confirmation stage the failure is
caught and the stage degrades to TCP-only verdicts, behaving exactly as if
no sing-box path were configured; the orchestrator's try/except around the
reachability call (run_once.py lines 95-104) records zero results precisely
when that stage raises. -/
theorem c3_amended_startup_failure_semantics :
    (∀ (delays : String → Except Unit (Option Int)) (nodes : List Node),
      check_nodes (.error ()) delays nodes = .error ()) ∧
    (∀ (inp : RFCInput) (maxd : Int), inp.startup = .error () →
      reachable_from_country inp maxd =
        reachable_from_country
          { node_names := inp.node_names, endpoints := inp.endpoints,
            singbox_path := false, startup := .ok () } maxd) ∧
    (main_iran_ok (.error ()) = [] ∧ ∀ l, main_iran_ok (.ok l) = l) := by
  refine ⟨fun delays nodes => rfl, ?_, rfl, fun l => rfl⟩
  intro inp maxd h
  have h1 : rfc_hasApi inp = false := by
    simp [rfc_hasApi, h]
  have h2 : rfc_hasApi
      { node_names := inp.node_names, endpoints := inp.endpoints,
        singbox_path := false, startup := .ok () } = false := by
    simp [rfc_hasApi]
  unfold reachable_from_country
  rw [h1, h2]

/-- Witness for C3's amended theorem at concrete inputs. -/
theorem c3_witness :
    check_nodes (.error ()) (fun _ => .ok none) [] = .error () ∧
    reachable_from_country
      { node_names := ["n"],
        endpoints := [(ep0, ⟨.ok (some "r"), .ok true, .ok none⟩)],
        singbox_path := true, startup := .error () } 800 =
      reachable_from_country
        { node_names := ["n"],
          endpoints := [(ep0, ⟨.ok (some "r"), .ok true, .ok none⟩)],
          singbox_path := false, startup := .ok () } 800 ∧
    main_iran_ok (.error ()) = [] :=
  ⟨c3_amended_startup_failure_semantics.1 (fun _ => .ok none) [],
   c3_amended_startup_failure_semantics.2.1
     { node_names := ["n"], endpoints := [(ep0, ⟨.ok (some "r"), .ok true, .ok none⟩)],
       singbox_path := true, startup := .error () } 800 rfl,
   c3_amended_startup_failure_semantics.2.2.1⟩

end Checker
